import Mathlib

/-!
Verification of the recipe-hub backend (`src/recipe_backend`): a shallow
embedding in Lean of the security, auth and recipe-router code, with
theorems settling the behavioural claims about it.

The JSON-over-base64url transport layer of the JWT library is modelled by an
executable injective codec (unary segments over the alphabet `a`/`x`,
segments joined by `.`); the HMAC-SHA256 primitive is an abstract parameter
`mac : String → String → String`, as the code treats it as a black box.
-/

set_option autoImplicit false

namespace RecipeHub

/-- An HTTP error raised by a handler (FastAPI `HTTPException`). -/
structure HTTPException where
  status_code : Nat
  detail : String
deriving Repr, DecidableEq

/-- JWT claim set as used by the application: optional `sub`, `iat`, `exp`.
A claim that is `none` models its key being absent from the payload dict. -/
structure Payload where
  sub : Option String
  iat : Option Int
  exp : Option Int
deriving Repr, DecidableEq

/-- `src/db/models.py`: the `users` table row. -/
structure User where
  id : Nat
  email : String
  hashed_password : String
  full_name : Option String
deriving Repr, DecidableEq

/-- `src/db/models.py`: the `recipes` table row.  `created_at` is a
server-assigned timestamp in seconds. -/
structure Recipe where
  id : Nat
  title : String
  description : Option String
  ingredients : Option String
  steps : Option String
  owner_id : Nat
  created_at : Int
deriving Repr, DecidableEq

/-- The relational store: the two tables. -/
structure DB where
  users : List User
  recipes : List Recipe
deriving Repr, DecidableEq

/-! ### Settings (`src/core/config.py`) -/

/-- The process environment variables the application reads. -/
structure EnvVars where
  DATABASE_URL : Option String
  JWT_SECRET : Option String
  ACCESS_TOKEN_EXPIRE_MINUTES : Option Int
deriving Repr

/-- `Settings` from `src/core/config.py` (the fields the claims need). -/
structure Settings where
  DATABASE_URL : String
  JWT_SECRET : String
  ACCESS_TOKEN_EXPIRE_MINUTES : Int
deriving Repr, DecidableEq

/-- Python truthiness of `env.get(k)` for a string variable: `None` and the
empty string are falsy. -/
def presentStr : Option String → Bool
  | none => false
  | some s => !(s == "")

/-- `get_settings` from `src/core/config.py`: raises when `DATABASE_URL` or
`JWT_SECRET` is missing, and defaults `ACCESS_TOKEN_EXPIRE_MINUTES` to 60
when the variable is unset (`int(os.getenv("ACCESS_TOKEN_EXPIRE_MINUTES", "60"))`). -/
def get_settings (env : EnvVars) : Except String Settings :=
  if presentStr env.DATABASE_URL && presentStr env.JWT_SECRET then
    .ok { DATABASE_URL := env.DATABASE_URL.getD ""
          JWT_SECRET := env.JWT_SECRET.getD ""
          ACCESS_TOKEN_EXPIRE_MINUTES := env.ACCESS_TOKEN_EXPIRE_MINUTES.getD 60 }
  else
    .error "Missing required environment variables"

/-! ### The token transport codec

Stands for JSON serialisation plus base64url: an injective, executable
encoding of the claim set into a dot-free character segment. -/

/-- Encode a list of numbers as a dot-free character stream: each number `n`
becomes `n` letters `a` followed by a terminator `x`. -/
def natsToChars (l : List Nat) : List Char :=
  l.foldr (fun n acc => List.replicate n 'a' ++ 'x' :: acc) []

/-- Parser state: `n` is the count of `a`s read since the last terminator. -/
def charsToNatsAux : List Char → Nat → Option (List Nat)
  | [], 0 => some []
  | [], _ + 1 => none
  | c :: rest, n =>
    if c = 'a' then charsToNatsAux rest (n + 1)
    else if c = 'x' then (charsToNatsAux rest 0).map (fun tl => n :: tl)
    else none

/-- Decode a character stream produced by `natsToChars`. -/
def charsToNats (l : List Char) : Option (List Nat) :=
  charsToNatsAux l 0

/-- Serialise an optional string claim: a presence tag, the length, then the
character codes. -/
def optStrToNats : Option String → List Nat
  | none => [0]
  | some s => 1 :: s.data.length :: s.data.map Char.toNat

/-- Serialise an optional integer claim: a presence tag, a sign tag, the
absolute value. -/
def optIntToNats : Option Int → List Nat
  | none => [0]
  | some i => [1, if i < 0 then 1 else 0, i.natAbs]

/-- Serialise a claim set. -/
def payloadToNats (p : Payload) : List Nat :=
  optStrToNats p.sub ++ (optIntToNats p.iat ++ optIntToNats p.exp)

/-- Parse an optional string claim, returning the remaining stream. -/
def decOptStr : List Nat → Option (Option String × List Nat)
  | 0 :: rest => some (none, rest)
  | 1 :: len :: rest =>
    if len ≤ rest.length then
      some (some (String.mk ((rest.take len).map Char.ofNat)), rest.drop len)
    else none
  | _ => none

/-- Parse an optional integer claim, returning the remaining stream. -/
def decOptInt : List Nat → Option (Option Int × List Nat)
  | 0 :: rest => some (none, rest)
  | 1 :: 0 :: a :: rest => some (some ((a : Int)), rest)
  | 1 :: 1 :: a :: rest => some (some (-(a : Int)), rest)
  | _ => none

/-- Parse a claim set from a number stream. -/
def natsToPayload (l : List Nat) : Option Payload :=
  match decOptStr l with
  | none => none
  | some (sub, l1) =>
    match decOptInt l1 with
    | none => none
    | some (iat, l2) =>
      match decOptInt l2 with
      | none => none
      | some (exp, l3) => if l3.isEmpty then some ⟨sub, iat, exp⟩ else none

/-! ### Codec roundtrip lemmas -/

theorem charsToNatsAux_replicate (m : Nat) (rest : List Char) (n : Nat) :
    charsToNatsAux (List.replicate m 'a' ++ 'x' :: rest) n =
      (charsToNatsAux rest 0).map (fun tl => (n + m) :: tl) := by
  induction m generalizing n with
  | zero =>
    simp [charsToNatsAux]
  | succ m ih =>
    have : List.replicate (m + 1) 'a' ++ 'x' :: rest =
        'a' :: (List.replicate m 'a' ++ 'x' :: rest) := by
      simp [List.replicate_succ]
    rw [this]
    simp only [charsToNatsAux, if_pos rfl]
    rw [ih (n + 1)]
    have : n + 1 + m = n + (m + 1) := by omega
    rw [this]
    simp

theorem charsToNats_natsToChars (l : List Nat) :
    charsToNats (natsToChars l) = some l := by
  induction l with
  | nil => rfl
  | cons n tl ih =>
    have hstep : natsToChars (n :: tl) =
        List.replicate n 'a' ++ 'x' :: natsToChars tl := rfl
    unfold charsToNats at *
    rw [hstep, charsToNatsAux_replicate]
    rw [ih]
    simp

theorem mem_natsToChars {c : Char} {l : List Nat} (h : c ∈ natsToChars l) :
    c = 'a' ∨ c = 'x' := by
  induction l with
  | nil => simp [natsToChars] at h
  | cons n tl ih =>
    have hstep : natsToChars (n :: tl) =
        List.replicate n 'a' ++ 'x' :: natsToChars tl := rfl
    rw [hstep] at h
    rcases List.mem_append.mp h with h1 | h1
    · exact Or.inl (List.eq_of_mem_replicate h1)
    · rcases List.mem_cons.mp h1 with h2 | h2
      · exact Or.inr h2
      · exact ih h2

theorem dot_not_mem_natsToChars (l : List Nat) : '.' ∉ natsToChars l := by
  intro h
  rcases mem_natsToChars h with h1 | h1 <;> simp at h1

theorem decOptStr_encode (o : Option String) (rest : List Nat) :
    decOptStr (optStrToNats o ++ rest) = some (o, rest) := by
  cases o with
  | none => rfl
  | some s =>
    simp only [optStrToNats, List.cons_append, decOptStr]
    have hlen : s.data.length ≤ (s.data.map Char.toNat ++ rest).length := by
      simp
    rw [if_pos hlen]
    have htake : (s.data.map Char.toNat ++ rest).take s.data.length =
        s.data.map Char.toNat := by
      have h := List.take_left (s.data.map Char.toNat) rest
      simp only [List.length_map] at h
      exact h
    have hdrop : (s.data.map Char.toNat ++ rest).drop s.data.length = rest := by
      have h := List.drop_left (s.data.map Char.toNat) rest
      simp only [List.length_map] at h
      exact h
    rw [htake, hdrop]
    have hmap : (s.data.map Char.toNat).map Char.ofNat = s.data := by
      rw [List.map_map]
      have : (fun c => Char.ofNat (Char.toNat c)) = (id : Char → Char) := by
        funext c
        simp [Char.ofNat_toNat]
      simp [Function.comp_def, Char.ofNat_toNat]
    rw [hmap]

theorem decOptInt_encode (o : Option Int) (rest : List Nat) :
    decOptInt (optIntToNats o ++ rest) = some (o, rest) := by
  cases o with
  | none => rfl
  | some i =>
    by_cases hi : i < 0
    · have hval : -((i.natAbs : Int)) = i := by omega
      simp only [optIntToNats, if_pos hi, List.cons_append, List.nil_append]
      simp only [decOptInt, hval]
    · have hval : ((i.natAbs : Int)) = i := by omega
      simp only [optIntToNats, if_neg hi, List.cons_append, List.nil_append]
      simp only [decOptInt, hval]

theorem natsToPayload_payloadToNats (p : Payload) :
    natsToPayload (payloadToNats p) = some p := by
  have h1 := decOptStr_encode p.sub (optIntToNats p.iat ++ optIntToNats p.exp)
  have h2 := decOptInt_encode p.iat (optIntToNats p.exp)
  have h3 : decOptInt (optIntToNats p.exp) = some (p.exp, []) := by
    have h := decOptInt_encode p.exp []
    simpa using h
  unfold natsToPayload payloadToNats
  rw [h1]
  dsimp only
  rw [h2]
  dsimp only
  rw [h3]
  simp

/-! ### Token assembly (`jose.jwt.encode` / `jose.jwt.decode`) -/

/-- The abstract symmetric MAC primitive (HMAC-SHA256 in the code): maps a
secret and a signing input to a signature string. -/
abbrev Mac := String → String → String

/-- The (constant) encoded JOSE header segment for algorithm HS256. -/
def headerChars : List Char := ['H', 'S', '2', '5', '6']

/-- The encoded payload segment of a claim set. -/
def payloadChars (p : Payload) : List Char := natsToChars (payloadToNats p)

/-- The signing input: header segment, dot, payload segment. -/
def signingInput (p : Payload) : String :=
  String.mk (headerChars ++ '.' :: payloadChars p)

/-- The encoded signature segment over a signing input. -/
def sigChars (mac : Mac) (secret : String) (input : String) : List Char :=
  natsToChars ((mac secret input).data.map Char.toNat)

/-- `jose.jwt.encode(claims, secret, algorithm="HS256")`: the compact
serialisation `header.payload.signature`. -/
def jwtEncode (mac : Mac) (secret : String) (p : Payload) : String :=
  String.mk (headerChars ++ '.' :: (payloadChars p ++ '.' :: sigChars mac secret (signingInput p)))

/-- Split a character list at every dot (`str.split(".")`). -/
def splitDots : List Char → List (List Char)
  | [] => [[]]
  | c :: rest =>
    if c = '.' then [] :: splitDots rest
    else (c :: (splitDots rest).headD []) :: (splitDots rest).tail

/-- Decode the payload segment back to a claim set. -/
def decodeSegPayload (seg : List Char) : Option Payload :=
  match charsToNats seg with
  | none => none
  | some nats => natsToPayload nats

/-- `jose.jwt.decode(token, secret, algorithms=["HS256"])`, with the ambient
clock passed explicitly as `now`: splits the compact serialisation, checks
the header, parses the claims, verifies the signature against the recomputed
MAC, and rejects an expired token (`exp < now`). Every failure is a `JWTError`
in the library; here each failure returns `none` directly (the caller's
`except JWTError: return None` collapses them to `None` anyway). -/
def jwtDecode (mac : Mac) (secret : String) (now : Int) (token : String) : Option Payload :=
  match splitDots token.data with
  | [h, p, s] =>
    if h = headerChars then
      match decodeSegPayload p with
      | none => none
      | some payload =>
        if s = sigChars mac secret (String.mk (h ++ '.' :: p)) then
          match payload.exp with
          | some e => if e < now then none else some payload
          | none => some payload
        else none
    else none
  | _ => none

/-! ### `src/core/security.py` -/

/-- Python `x or y` for an optional integer `x`: `None` and `0` are falsy and
select `y`. This embeds
`expire_minutes = expires_delta_minutes or settings.ACCESS_TOKEN_EXPIRE_MINUTES`. -/
def pyOrInt (x : Option Int) (y : Int) : Int :=
  match x with
  | none => y
  | some v => if v = 0 then y else v

/-- `create_access_token(subject, expires_delta_minutes)` from
`src/core/security.py`, with the current time `now` (integer UTC seconds)
passed explicitly: builds `{sub, iat, exp}` and signs it. -/
def create_access_token (mac : Mac) (settings : Settings) (now : Int)
    (subject : String) (expires_delta_minutes : Option Int) : String :=
  let expire_minutes := pyOrInt expires_delta_minutes settings.ACCESS_TOKEN_EXPIRE_MINUTES
  let expire := now + 60 * expire_minutes
  jwtEncode mac settings.JWT_SECRET { sub := some subject, iat := some now, exp := some expire }

/-- `decode_token(token)` from `src/core/security.py`: decode and validate,
returning the payload on success and `None` on any `JWTError`. -/
def decode_token (mac : Mac) (settings : Settings) (now : Int) (token : String) : Option Payload :=
  jwtDecode mac settings.JWT_SECRET now token

/-! ### Split lemmas and the decode/encode roundtrip -/

theorem splitDots_no_dot {a : List Char} (ha : '.' ∉ a) : splitDots a = [a] := by
  induction a with
  | nil => rfl
  | cons c rest ih =>
    have hc : c ≠ '.' := fun h => ha (h ▸ List.mem_cons_self c rest)
    have hrest : '.' ∉ rest := fun h => ha (List.mem_cons_of_mem c h)
    simp only [splitDots, if_neg hc]
    rw [ih hrest]
    rfl

theorem splitDots_append_dot {a : List Char} (b : List Char) (ha : '.' ∉ a) :
    splitDots (a ++ '.' :: b) = a :: splitDots b := by
  induction a with
  | nil =>
    simp [List.nil_append, splitDots]
  | cons c rest ih =>
    have hc : c ≠ '.' := fun h => ha (h ▸ List.mem_cons_self c rest)
    have hrest : '.' ∉ rest := fun h => ha (List.mem_cons_of_mem c h)
    rw [List.cons_append]
    simp only [splitDots, if_neg hc]
    rw [ih hrest]
    rfl

theorem dot_not_mem_headerChars : '.' ∉ headerChars := by decide

theorem dot_not_mem_payloadChars (p : Payload) : '.' ∉ payloadChars p :=
  dot_not_mem_natsToChars _

theorem dot_not_mem_sigChars (mac : Mac) (secret input : String) :
    '.' ∉ sigChars mac secret input :=
  dot_not_mem_natsToChars _

theorem splitDots_jwtEncode (mac : Mac) (secret : String) (p : Payload) :
    splitDots (jwtEncode mac secret p).data =
      [headerChars, payloadChars p, sigChars mac secret (signingInput p)] := by
  show splitDots (headerChars ++ '.' :: (payloadChars p ++ '.' :: sigChars mac secret (signingInput p))) = _
  rw [splitDots_append_dot _ dot_not_mem_headerChars]
  rw [splitDots_append_dot _ (dot_not_mem_payloadChars p)]
  rw [splitDots_no_dot (dot_not_mem_sigChars mac secret (signingInput p))]

theorem decodeSegPayload_payloadChars (p : Payload) :
    decodeSegPayload (payloadChars p) = some p := by
  unfold decodeSegPayload payloadChars
  rw [charsToNats_natsToChars]
  exact natsToPayload_payloadToNats p

/-- Round trip of the token format: decoding an encoded claim set yields the
claim set when it is unexpired, and `none` when it is expired. -/
theorem jwtDecode_jwtEncode (mac : Mac) (secret : String) (now : Int) (p : Payload) :
    jwtDecode mac secret now (jwtEncode mac secret p) =
      match p.exp with
      | some e => if e < now then none else some p
      | none => some p := by
  unfold jwtDecode
  rw [splitDots_jwtEncode]
  dsimp only
  rw [if_pos rfl, decodeSegPayload_payloadChars]
  dsimp only
  have hsi : String.mk (headerChars ++ '.' :: payloadChars p) = signingInput p := rfl
  rw [hsi, if_pos rfl]

/-! ### Password hashing (`passlib` `CryptContext` with `schemes=["bcrypt"]`) -/

/-- The error passlib raises when a hash string cannot be identified
(`passlib.exc.UnknownHashError`, a `ValueError`). -/
inductive PasslibError
  | unknownHash
deriving Repr, DecidableEq

/-- Does `pat` start the list `l` (exact characters)? -/
def startsWithChars : List Char → List Char → Bool
  | [], _ => true
  | _ :: _, [] => false
  | a :: as, b :: bs => (a == b) && startsWithChars as bs

/-- passlib identification of a bcrypt hash: it must carry one of the bcrypt
ident markers. -/
def bcryptIdentify (hash : String) : Bool :=
  startsWithChars "$2b$".data hash.data || startsWithChars "$2a$".data hash.data ||
    startsWithChars "$2y$".data hash.data || startsWithChars "$2x$".data hash.data ||
    startsWithChars "$2$".data hash.data

/-- `CryptContext.verify(secret, hash)`: raises `UnknownHashError` when the
hash is not identifiable as bcrypt; otherwise returns the bcrypt backend's
comparison result. The backend comparison is the abstract parameter `check`. -/
def cryptContextVerify (check : String → String → Bool) (secret hash : String) :
    Except PasslibError Bool :=
  if bcryptIdentify hash then .ok (check secret hash) else .error .unknownHash

/-- `verify_password` from `src/core/security.py`: a direct call to
`pwd_context.verify`, with no exception handling of its own. -/
def verify_password (check : String → String → Bool)
    (plain_password hashed_password : String) : Except PasslibError Bool :=
  cryptContextVerify check plain_password hashed_password

/-! ### The OAuth2 bearer dependency (`fastapi.security.OAuth2PasswordBearer`) -/

/-- `OAuth2PasswordBearer(tokenUrl="/auth/login")` in `src/core/security.py`
leaves the constructor's `auto_error` parameter at its default, `True`. -/
def oauth2_scheme_auto_error : Bool := true

/-- `str.partition(" ")` on the header value: the part before the first
space and the part after it (empty when there is no space). -/
def splitFirstSpace : List Char → List Char × List Char
  | [] => ([], [])
  | c :: rest =>
    if c = ' ' then ([], rest)
    else
      let (a, b) := splitFirstSpace rest
      (c :: a, b)

/-- `OAuth2PasswordBearer.__call__`: reads the `Authorization` header; when
the header is absent, empty, or the scheme is not `bearer`, it raises
401 `Not authenticated` if `auto_error` is set, else yields `None`;
otherwise it yields the token part of the header. -/
def oauth2_scheme_call (authorization : Option String) :
    Except HTTPException (Option String) :=
  let fail : Except HTTPException (Option String) :=
    if oauth2_scheme_auto_error then .error ⟨401, "Not authenticated"⟩ else .ok none
  match authorization with
  | none => fail
  | some v =>
    if v = "" then fail
    else
      let sp := splitFirstSpace v.data
      if sp.1.map Char.toLower == "bearer".data then .ok (some (String.mk sp.2)) else fail

/-! ### Auth guard (`_get_current_user` in `src/api/routers_auth.py` and
`src/api/routers_recipes.py` — both routers define the same function) -/

/-- `db.query(User).filter(User.email == email).first()`. -/
def firstUserByEmail (db : DB) (email : String) : Option User :=
  (db.users.filter (fun u => u.email == email)).head?

/-- `_get_current_user(db, token)`: decode the token; on no payload or a
payload without a `sub` claim raise 401 `Invalid token`; look up the user by
the `sub` email and raise 401 `User not found` when absent. -/
def get_current_user (mac : Mac) (settings : Settings) (now : Int) (db : DB)
    (token : String) : Except HTTPException User :=
  match decode_token mac settings now token with
  | none => .error ⟨401, "Invalid token"⟩
  | some payload =>
    match payload.sub with
    | none => .error ⟨401, "Invalid token"⟩
    | some email =>
      match firstUserByEmail db email with
      | none => .error ⟨401, "User not found"⟩
      | some user => .ok user

/-! ### Recipe router (`src/api/routers_recipes.py`) -/

/-- Request body of `POST /recipes` (`RecipeCreate` in `src/db/schemas.py`):
title plus optional description, ingredients, steps — no owner field. -/
structure RecipeCreate where
  title : String
  description : Option String
  ingredients : Option String
  steps : Option String
deriving Repr, DecidableEq

/-- Request body of `PUT /recipes/{id}` (`RecipeUpdate` in
`src/db/schemas.py`): every field optional, `none` meaning absent. -/
structure RecipeUpdate where
  title : Option String
  description : Option String
  ingredients : Option String
  steps : Option String
deriving Repr, DecidableEq

/-- `db.query(Recipe).filter(Recipe.id == recipe_id).first()`. -/
def firstRecipeById (db : DB) (rid : Nat) : Option Recipe :=
  (db.recipes.filter (fun r => r.id == rid)).head?

/-- Autoincrement of the integer primary key on insert. -/
def nextRecipeId (db : DB) : Nat :=
  (db.recipes.map Recipe.id).foldr Nat.max 0 + 1

/-- `create_recipe`: resolve the current user, insert a recipe whose fields
come from the body and whose `owner_id` is the resolved user's id. The
returned `DB` is the store after the request. -/
def create_recipe (mac : Mac) (settings : Settings) (now : Int) (db : DB)
    (recipe_in : RecipeCreate) (token : String) :
    Except HTTPException Recipe × DB :=
  match get_current_user mac settings now db token with
  | .error e => (.error e, db)
  | .ok user =>
    let recipe : Recipe :=
      { id := nextRecipeId db
        title := recipe_in.title
        description := recipe_in.description
        ingredients := recipe_in.ingredients
        steps := recipe_in.steps
        owner_id := user.id
        created_at := now }
    (.ok recipe, { db with recipes := db.recipes ++ [recipe] })

/-- The four `if recipe_in.<field> is not None:` assignments of
`update_recipe`: exactly the provided fields are overwritten. -/
def applyRecipeUpdate (recipe : Recipe) (recipe_in : RecipeUpdate) : Recipe :=
  { recipe with
    title := match recipe_in.title with
      | some t => t
      | none => recipe.title
    description := match recipe_in.description with
      | some d => some d
      | none => recipe.description
    ingredients := match recipe_in.ingredients with
      | some i => some i
      | none => recipe.ingredients
    steps := match recipe_in.steps with
      | some s => some s
      | none => recipe.steps }

/-- `update_recipe`: auth, 404 when the id does not exist, 403 when the
caller is not the owner, otherwise apply the partial update and commit. -/
def update_recipe (mac : Mac) (settings : Settings) (now : Int) (db : DB)
    (recipe_id : Nat) (recipe_in : RecipeUpdate) (token : String) :
    Except HTTPException Recipe × DB :=
  match get_current_user mac settings now db token with
  | .error e => (.error e, db)
  | .ok user =>
    match firstRecipeById db recipe_id with
    | none => (.error ⟨404, "Recipe not found"⟩, db)
    | some recipe =>
      if recipe.owner_id ≠ user.id then
        (.error ⟨403, "Not authorized to modify this recipe"⟩, db)
      else
        let recipe' := applyRecipeUpdate recipe recipe_in
        (.ok recipe',
          { db with recipes := db.recipes.map (fun r => if r.id = recipe_id then recipe' else r) })

/-- `delete_recipe`: same auth/404/403 gates as update, then remove the row. -/
def delete_recipe (mac : Mac) (settings : Settings) (now : Int) (db : DB)
    (recipe_id : Nat) (token : String) : Except HTTPException Unit × DB :=
  match get_current_user mac settings now db token with
  | .error e => (.error e, db)
  | .ok user =>
    match firstRecipeById db recipe_id with
    | none => (.error ⟨404, "Recipe not found"⟩, db)
    | some recipe =>
      if recipe.owner_id ≠ user.id then
        (.error ⟨403, "Not authorized to delete this recipe"⟩, db)
      else
        (.ok (), { db with recipes := db.recipes.filter (fun r => !(r.id == recipe_id)) })

/-! ### The list query (`list_recipes`) and SQL `ILIKE` -/

/-- Disjunction of `f` over every suffix of the value list. -/
def anySuffix (f : List Char → Bool) : List Char → Bool
  | [] => f []
  | c :: vs => f (c :: vs) || anySuffix f vs

/-- SQL `LIKE`/`ILIKE` pattern matching over characters: `%` matches any run
of characters (the pattern tail must then match some suffix), `_` matches
exactly one character, any other pattern character matches itself
case-insensitively (the `I` of `ILIKE`). -/
def likeMatch : List Char → List Char → Bool
  | [], v => v.isEmpty
  | p :: ps, v =>
    if p = '%' then anySuffix (fun t => likeMatch ps t) v
    else if p = '_' then
      match v with
      | [] => false
      | _ :: vs => likeMatch ps vs
    else
      match v with
      | [] => false
      | c :: vs => (p.toLower == c.toLower) && likeMatch ps vs

/-- `column.ilike(pattern)`: a NULL column matches nothing. -/
def ilike (col : Option String) (pattern : String) : Bool :=
  match col with
  | none => false
  | some v => likeMatch pattern.data v.data

/-- The `or_` filter of `list_recipes` with `like = f"%{q}%"`. -/
def recipeMatchesQ (q : String) (r : Recipe) : Bool :=
  let like := "%" ++ q ++ "%"
  ilike (some r.title) like || ilike r.description like || ilike r.ingredients like

/-- Insert a recipe into a list already sorted by `created_at` descending. -/
def insertByCreated (r : Recipe) : List Recipe → List Recipe
  | [] => [r]
  | x :: xs =>
    if x.created_at ≤ r.created_at then r :: x :: xs
    else x :: insertByCreated r xs

/-- `order_by(Recipe.created_at.desc())`: sort newest first. -/
def sortByCreatedDesc : List Recipe → List Recipe
  | [] => []
  | x :: xs => insertByCreated x (sortByCreatedDesc xs)

/-- The query of `list_recipes`: filter only when `q` is truthy (absent and
empty-string queries filter nothing), order newest first, then
`offset(skip).limit(limit)`. -/
def list_recipes_query (db : DB) (q : Option String) (skip limit : Nat) : List Recipe :=
  let base :=
    match q with
    | some qs => if qs = "" then db.recipes else db.recipes.filter (recipeMatchesQ qs)
    | none => db.recipes
  ((sortByCreatedDesc base).drop skip).take limit

/-- The full `GET /recipes` endpoint including its
`token: Optional[str] = Depends(oauth2_scheme)` dependency: FastAPI runs the
dependency first, and an `HTTPException` raised there is the response. -/
def list_recipes_endpoint (db : DB) (q : Option String) (skip limit : Nat)
    (authorization : Option String) : Except HTTPException (List Recipe) :=
  match oauth2_scheme_call authorization with
  | .error e => .error e
  | .ok _token => .ok (list_recipes_query db q skip limit)

/-! ### Application routes (`src/api/main.py` plus the two routers) -/

/-- The body returned by the health endpoint. -/
structure HealthMessage where
  message : String
deriving Repr, DecidableEq

/-- `health_check` from `src/api/main.py`. -/
def health_check : HealthMessage := ⟨"Healthy"⟩

/-- Every route the application mounts. -/
inductive Endpoint
  | healthCheck
  | websocketInfo
  | authRegister
  | authLogin
  | authMe
  | recipesCreate
  | recipesList
  | recipesGet
  | recipesUpdate
  | recipesDelete
deriving Repr, DecidableEq

/-- Does `path` match the template `/recipes/{recipe_id}`? -/
def isRecipeItemPath (path : String) : Bool :=
  let pre := "/recipes/".data
  (path.data.take pre.length == pre) &&
    !(path.data.drop pre.length).isEmpty &&
    (path.data.drop pre.length).all (fun c => c != '/')

/-- The routing table assembled in `src/api/main.py`: the health check is
mounted at `/` (`@app.get("/")`), the info endpoint at `/ws-info`, and the
two routers at `/auth` and `/recipes`. -/
def matchRoute (method path : String) : Option Endpoint :=
  if method = "GET" ∧ path = "/" then some .healthCheck
  else if method = "GET" ∧ path = "/ws-info" then some .websocketInfo
  else if method = "POST" ∧ path = "/auth/register" then some .authRegister
  else if method = "POST" ∧ path = "/auth/login" then some .authLogin
  else if method = "GET" ∧ path = "/auth/me" then some .authMe
  else if method = "POST" ∧ path = "/recipes" then some .recipesCreate
  else if method = "GET" ∧ path = "/recipes" then some .recipesList
  else if method = "GET" ∧ isRecipeItemPath path then some .recipesGet
  else if method = "PUT" ∧ isRecipeItemPath path then some .recipesUpdate
  else if method = "DELETE" ∧ isRecipeItemPath path then some .recipesDelete
  else none

/-- The declared success status of each route (FastAPI defaults to 200; the
router overrides create to 201 and delete to 204). -/
def successStatus : Endpoint → Nat
  | .healthCheck => 200
  | .websocketInfo => 200
  | .authRegister => 200
  | .authLogin => 200
  | .authMe => 200
  | .recipesCreate => 201
  | .recipesList => 200
  | .recipesGet => 200
  | .recipesUpdate => 200
  | .recipesDelete => 204

/-- Status of a successful request to `method path`; an unrouted path is a
framework 404. -/
def appRouteStatus (method path : String) : Nat :=
  match matchRoute method path with
  | some e => successStatus e
  | none => 404

/-! ### Spec-side search predicate and list contract

These definitions follow the specification's words ("matches
case-insensitively against title OR description OR ingredients (logical OR
of substring matches); results ordered by creation time descending;
pagination via skip/limit") and are compared with the code's query. -/

/-- Case-insensitive: does `pat` start the list `l`? -/
def startsWithCI : List Char → List Char → Bool
  | [], _ => true
  | _ :: _, [] => false
  | a :: as, b :: bs => (a.toLower == b.toLower) && startsWithCI as bs

/-- Case-insensitive: does `needle` occur contiguously inside the list? -/
def occursCI (needle : List Char) : List Char → Bool
  | [] => needle.isEmpty
  | c :: rest => startsWithCI needle (c :: rest) || occursCI needle rest

/-- Spec words: the column contains `q` as a case-insensitive substring
(a NULL column contains nothing). -/
def specFieldContains (q : String) : Option String → Bool
  | none => false
  | some v => occursCI q.data v.data

/-- Spec words: title OR description OR ingredients contains `q`
case-insensitively. -/
def specRecipeMatches (q : String) (r : Recipe) : Bool :=
  specFieldContains q (some r.title) || specFieldContains q r.description ||
    specFieldContains q r.ingredients

/-- The list contract as the spec words it, for a present search string:
exactly the matching recipes, ordered by creation time descending, `skip`
dropped from the front, at most `limit` returned. -/
def list_recipes_spec (db : DB) (q : String) (skip limit : Nat) : List Recipe :=
  ((sortByCreatedDesc (db.recipes.filter (specRecipeMatches q))).drop skip).take limit

/-- The search string uses no SQL LIKE metacharacter. -/
def noWildcards (q : String) : Bool :=
  q.data.all (fun c => (c != '%') && (c != '_'))

/-! ### LIKE versus case-insensitive substring -/

theorem anySuffix_congr {f g : List Char → Bool} (h : ∀ t, f t = g t) :
    ∀ v, anySuffix f v = anySuffix g v := by
  intro v
  induction v with
  | nil => simp [anySuffix, h]
  | cons c vs ih => simp [anySuffix, h, ih]

theorem startsWithCI_nil_right (qs : List Char) : startsWithCI qs [] = qs.isEmpty := by
  cases qs <;> rfl

theorem anySuffix_of_nil {f : List Char → Bool} (h : f [] = true) :
    ∀ w, anySuffix f w = true := by
  intro w
  induction w with
  | nil => simpa [anySuffix] using h
  | cons c ws ih => simp [anySuffix, ih]

theorem likeMatch_trailing_percent {qs : List Char}
    (h : ∀ c ∈ qs, c ≠ '%' ∧ c ≠ '_') (v : List Char) :
    likeMatch (qs ++ ['%']) v = startsWithCI qs v := by
  induction qs generalizing v with
  | nil =>
    have hone : likeMatch ['%'] v = anySuffix (fun t => likeMatch [] t) v := by
      simp [likeMatch]
    have hall : likeMatch ['%'] v = true := by
      rw [hone]
      exact anySuffix_of_nil rfl v
    simp only [List.nil_append, hall, startsWithCI]
  | cons q qs ih =>
    have hq : q ≠ '%' ∧ q ≠ '_' := h q (List.mem_cons_self q qs)
    have hqs : ∀ c ∈ qs, c ≠ '%' ∧ c ≠ '_' := fun c hc => h c (List.mem_cons_of_mem q hc)
    cases v with
    | nil =>
      simp only [List.cons_append, likeMatch, if_neg hq.1, if_neg hq.2]
      rfl
    | cons c vs =>
      simp only [List.cons_append, likeMatch, if_neg hq.1, if_neg hq.2]
      show (q.toLower == c.toLower && likeMatch (qs ++ ['%']) vs) =
        startsWithCI (q :: qs) (c :: vs)
      rw [ih hqs vs]
      rfl

theorem likeMatch_wrapped_percent {qs : List Char}
    (h : ∀ c ∈ qs, c ≠ '%' ∧ c ≠ '_') (v : List Char) :
    likeMatch ('%' :: (qs ++ ['%'])) v = occursCI qs v := by
  have hstep : ∀ w, likeMatch ('%' :: (qs ++ ['%'])) w =
      anySuffix (fun t => startsWithCI qs t) w := by
    intro w
    simp only [likeMatch, if_pos rfl]
    exact anySuffix_congr (fun t => likeMatch_trailing_percent h t) w
  induction v with
  | nil =>
    rw [hstep]
    simp [anySuffix, occursCI, startsWithCI_nil_right]
  | cons c vs ih =>
    rw [hstep]
    simp only [anySuffix, occursCI]
    rw [← hstep vs, ih]

theorem recipeMatchesQ_eq_spec {q : String} (h : noWildcards q = true) (r : Recipe) :
    recipeMatchesQ q r = specRecipeMatches q r := by
  have hdata : ("%" ++ q ++ "%").data = '%' :: (q.data ++ ['%']) := rfl
  have hchars : ∀ c ∈ q.data, c ≠ '%' ∧ c ≠ '_' := by
    intro c hc
    have := List.all_eq_true.mp h c hc
    constructor <;> intro heq <;> subst heq <;> simp at this
  have hfield : ∀ col : Option String,
      ilike col ("%" ++ q ++ "%") = specFieldContains q col := by
    intro col
    cases col with
    | none => rfl
    | some v =>
      show likeMatch ("%" ++ q ++ "%").data v.data = occursCI q.data v.data
      rw [hdata]
      exact likeMatch_wrapped_percent hchars v.data
  simp only [recipeMatchesQ, specRecipeMatches, hfield]

/-! ### Ordering lemmas for the sort -/

theorem mem_insertByCreated {x r : Recipe} {l : List Recipe}
    (h : x ∈ insertByCreated r l) : x = r ∨ x ∈ l := by
  induction l with
  | nil =>
    simp [insertByCreated] at h
    exact Or.inl h
  | cons y ys ih =>
    by_cases hc : y.created_at ≤ r.created_at
    · simp only [insertByCreated, if_pos hc] at h
      rcases List.mem_cons.mp h with h1 | h1
      · exact Or.inl h1
      · exact Or.inr h1
    · simp only [insertByCreated, if_neg hc] at h
      rcases List.mem_cons.mp h with h1 | h1
      · exact Or.inr (h1 ▸ List.mem_cons_self y ys)
      · rcases ih h1 with h2 | h2
        · exact Or.inl h2
        · exact Or.inr (List.mem_cons_of_mem y h2)

theorem pairwise_insertByCreated {r : Recipe} {l : List Recipe}
    (h : l.Pairwise (fun a b => b.created_at ≤ a.created_at)) :
    (insertByCreated r l).Pairwise (fun a b => b.created_at ≤ a.created_at) := by
  induction l with
  | nil => simp [insertByCreated]
  | cons y ys ih =>
    rcases List.pairwise_cons.mp h with ⟨hy, hys⟩
    by_cases hc : y.created_at ≤ r.created_at
    · simp only [insertByCreated, if_pos hc]
      refine List.pairwise_cons.mpr ⟨?_, h⟩
      intro b hb
      rcases List.mem_cons.mp hb with h1 | h1
      · exact h1 ▸ hc
      · exact le_trans (hy b h1) hc
    · simp only [insertByCreated, if_neg hc]
      refine List.pairwise_cons.mpr ⟨?_, ih hys⟩
      intro b hb
      rcases mem_insertByCreated hb with h1 | h1
      · exact h1 ▸ le_of_lt (lt_of_not_le hc)
      · exact hy b h1

theorem pairwise_sortByCreatedDesc (l : List Recipe) :
    (sortByCreatedDesc l).Pairwise (fun a b => b.created_at ≤ a.created_at) := by
  induction l with
  | nil => simp [sortByCreatedDesc]
  | cons x xs ih => exact pairwise_insertByCreated ih

/-! ### Further split lemmas -/

theorem splitDots_ne_nil (l : List Char) : splitDots l ≠ [] := by
  cases l with
  | nil => simp [splitDots]
  | cons c rest => by_cases hc : c = '.' <;> simp [splitDots, hc]

theorem splitDots_eq_singleton {l x : List Char} (h : splitDots l = [x]) : x = l := by
  induction l generalizing x with
  | nil =>
    simp [splitDots] at h
    exact h
  | cons c rest ih =>
    by_cases hc : c = '.'
    · simp only [splitDots, if_pos hc] at h
      rcases List.cons.inj h with ⟨_, h2⟩
      exact absurd h2 (splitDots_ne_nil rest)
    · simp only [splitDots, if_neg hc] at h
      obtain ⟨y, ys, hy⟩ : ∃ y ys, splitDots rest = y :: ys := by
        cases hsp : splitDots rest with
        | nil => exact absurd hsp (splitDots_ne_nil rest)
        | cons a b => exact ⟨a, b, rfl⟩
      rw [hy] at h
      rcases List.cons.inj h with ⟨h1, h2⟩
      have hys : ys = [] := by simpa using h2
      have hrest : y = rest := ih (by rw [hy, hys])
      rw [← h1]
      simp [hrest]

theorem occursCI_nil (l : List Char) : occursCI [] l = true := by
  cases l <;> simp [occursCI, startsWithCI]

theorem specRecipeMatches_empty (r : Recipe) : specRecipeMatches "" r = true := by
  have : specFieldContains "" (some r.title) = true := occursCI_nil r.title.data
  simp [specRecipeMatches, this]

/-! ## The claims -/

/-- C4 counterexample: the application mounts no route at `/health`; a GET
request to `/health` is answered by the framework 404 catch-all, not by
200 with body `message: Healthy` as the claim states. -/
theorem C4_counterexample : appRouteStatus "GET" "/health" = 404 ∧
    matchRoute "GET" "/health" = none := by
  constructor <;> rfl

/-- C4 (amended): the health check is mounted at the root path `/`
(`@app.get("/")` in `src/api/main.py`); a GET request to `/`, with no
authentication and no body, is routed to `health_check`, succeeds with
status 200, and returns the body with message "Healthy". The claimed path
`/health` matches no route. -/
theorem C4_health_at_root :
    matchRoute "GET" "/" = some Endpoint.healthCheck ∧
    appRouteStatus "GET" "/" = 200 ∧
    health_check = { message := "Healthy" } := by
  refine ⟨rfl, rfl, rfl⟩

/-- C3 counterexample: on a hash string that is not bcrypt output,
`verify_password` does not return `false` — it propagates passlib's
`UnknownHashError` (the claim says it never throws and returns false). -/
theorem C3_counterexample :
    verify_password (fun _ _ => false) "password" "not-a-bcrypt-hash" =
      Except.error PasslibError.unknownHash := by
  rfl

/-- C3 (amended): `verify_password` has no exception handling of its own;
on a hash that passlib cannot identify as bcrypt it raises
`UnknownHashError`, and only on an identifiable bcrypt hash does it return
the backend's boolean verdict. -/
theorem C3_verify_password_behaviour (check : String → String → Bool)
    (pw h : String) :
    (bcryptIdentify h = false →
      verify_password check pw h = Except.error PasslibError.unknownHash) ∧
    (bcryptIdentify h = true →
      verify_password check pw h = Except.ok (check pw h)) := by
  constructor <;> intro hid <;>
    simp [verify_password, cryptContextVerify, hid]

/-- C3 witness: both branches at concrete hashes. -/
theorem C3_witness :
    verify_password (fun _ _ => true) "pw" "zzz" =
      Except.error PasslibError.unknownHash ∧
    verify_password (fun _ _ => true) "pw" "$2b$12$abcdefghijklmnopqrstuv" =
      Except.ok true :=
  ⟨(C3_verify_password_behaviour (fun _ _ => true) "pw" "zzz").1 rfl,
   (C3_verify_password_behaviour (fun _ _ => true) "pw"
      "$2b$12$abcdefghijklmnopqrstuv").2 rfl⟩

/-- C2, evaluated at the failing input: `oauth2_scheme` is constructed with
`auto_error` left `True`, so a request to GET /recipes with no
`Authorization` header is rejected 401 `Not authenticated` by the
dependency before the handler runs — the request does fail, contradicting
the claim that an absent token is tolerated. A present-but-invalid bearer
token, by contrast, is tolerated: the handler never validates it. -/
theorem C2_absent_token_rejected :
    list_recipes_endpoint ⟨[], [⟨1, "t", none, none, none, 1, 0⟩]⟩ none 0 20 none =
      Except.error ⟨401, "Not authenticated"⟩ ∧
    list_recipes_endpoint ⟨[], [⟨1, "t", none, none, none, 1, 0⟩]⟩ none 0 20
        (some "Bearer not-a-valid-token") =
      Except.ok [⟨1, "t", none, none, none, 1, 0⟩] := by
  constructor <;> rfl

/-- C5: `update_recipe` overwrites exactly the provided fields: absent
(`none`) fields keep their stored values, provided fields (including one
provided as the empty string) are written, identity/ownership/creation-time
fields are never touched, and an update carrying only a description leaves
title, ingredients and steps unchanged. -/
theorem C5_partial_update (r : Recipe) (u : RecipeUpdate) :
    ((applyRecipeUpdate r u).id = r.id ∧
      (applyRecipeUpdate r u).owner_id = r.owner_id ∧
      (applyRecipeUpdate r u).created_at = r.created_at) ∧
    (u.title = none → (applyRecipeUpdate r u).title = r.title) ∧
    (u.description = none → (applyRecipeUpdate r u).description = r.description) ∧
    (u.ingredients = none → (applyRecipeUpdate r u).ingredients = r.ingredients) ∧
    (u.steps = none → (applyRecipeUpdate r u).steps = r.steps) ∧
    (∀ t, u.title = some t → (applyRecipeUpdate r u).title = t) ∧
    (∀ d, u.description = some d → (applyRecipeUpdate r u).description = some d) ∧
    (∀ i, u.ingredients = some i → (applyRecipeUpdate r u).ingredients = some i) ∧
    (∀ s, u.steps = some s → (applyRecipeUpdate r u).steps = some s) ∧
    (∀ d, applyRecipeUpdate r ⟨none, some d, none, none⟩ =
      { r with description := some d }) := by
  refine ⟨⟨rfl, rfl, rfl⟩, ?_, ?_, ?_, ?_, ?_, ?_, ?_, ?_, ?_⟩ <;>
    first
      | (intro h; simp [applyRecipeUpdate, h])
      | (intro a h; simp [applyRecipeUpdate, h])
      | (intro a; simp [applyRecipeUpdate])

/-- C5 witness: a description-only update with the empty string leaves the
other fields alone and writes the empty string (distinguishable from
absent, which preserves the old description). -/
theorem C5_witness :
    (applyRecipeUpdate ⟨1, "t", some "d", some "i", some "s", 7, 0⟩
        ⟨none, some "", none, none⟩).title = "t" ∧
    (applyRecipeUpdate ⟨1, "t", some "d", some "i", some "s", 7, 0⟩
        ⟨none, some "", none, none⟩).description = some "" ∧
    (applyRecipeUpdate ⟨1, "t", some "d", some "i", some "s", 7, 0⟩
        ⟨none, none, none, none⟩).description = some "d" := by
  have h1 := C5_partial_update ⟨1, "t", some "d", some "i", some "s", 7, 0⟩
    ⟨none, some "", none, none⟩
  have h2 := C5_partial_update ⟨1, "t", some "d", some "i", some "s", 7, 0⟩
    ⟨none, none, none, none⟩
  exact ⟨h1.2.1 rfl, h1.2.2.2.2.2.2.1 "" rfl, h2.2.2.1 rfl⟩

/-- C6: for an authenticated caller, both `update_recipe` and
`delete_recipe` fail 404 `Recipe not found` when no recipe has the id,
fail 403 when the recipe's owner is not the caller, and succeed for the
owner; in both failure cases the store is returned unchanged. -/
theorem C6_owner_guard (mac : Mac) (settings : Settings) (now : Int) (db : DB)
    (rid : Nat) (rin : RecipeUpdate) (token : String) (user : User)
    (hauth : get_current_user mac settings now db token = .ok user) :
    (firstRecipeById db rid = none →
      update_recipe mac settings now db rid rin token =
        (.error ⟨404, "Recipe not found"⟩, db) ∧
      delete_recipe mac settings now db rid token =
        (.error ⟨404, "Recipe not found"⟩, db)) ∧
    (∀ recipe, firstRecipeById db rid = some recipe → recipe.owner_id ≠ user.id →
      update_recipe mac settings now db rid rin token =
        (.error ⟨403, "Not authorized to modify this recipe"⟩, db) ∧
      delete_recipe mac settings now db rid token =
        (.error ⟨403, "Not authorized to delete this recipe"⟩, db)) ∧
    (∀ recipe, firstRecipeById db rid = some recipe → recipe.owner_id = user.id →
      (update_recipe mac settings now db rid rin token).1 =
        .ok (applyRecipeUpdate recipe rin) ∧
      (delete_recipe mac settings now db rid token).1 = .ok ()) := by
  unfold update_recipe delete_recipe
  rw [hauth]
  refine ⟨?_, ?_, ?_⟩
  · intro hnone
    rw [hnone]
    exact ⟨rfl, rfl⟩
  · intro recipe hsome hne
    rw [hsome]
    simp [if_pos hne]
  · intro recipe hsome heq
    rw [hsome]
    have hnn : ¬ recipe.owner_id ≠ user.id := fun hn => hn heq
    simp [if_neg hnn]

/-- C6 witness: a store with one user (id 1) and one recipe (id 1) owned by
user 2; the authenticated caller (a valid freshly issued token for user 1)
gets 404 on a missing id, 403 on the foreign recipe, and success on an
owned recipe in a second store. -/
theorem C6_witness :
    update_recipe (fun _ _ => "m") ⟨"d", "s", 60⟩ 0
        ⟨[⟨1, "u", "hp", none⟩], [⟨1, "t", none, none, none, 2, 0⟩]⟩ 9
        ⟨none, some "new", none, none⟩
        (create_access_token (fun _ _ => "m") ⟨"d", "s", 60⟩ 0 "u" (some 1)) =
      (.error ⟨404, "Recipe not found"⟩,
        ⟨[⟨1, "u", "hp", none⟩], [⟨1, "t", none, none, none, 2, 0⟩]⟩) ∧
    delete_recipe (fun _ _ => "m") ⟨"d", "s", 60⟩ 0
        ⟨[⟨1, "u", "hp", none⟩], [⟨1, "t", none, none, none, 2, 0⟩]⟩ 1
        (create_access_token (fun _ _ => "m") ⟨"d", "s", 60⟩ 0 "u" (some 1)) =
      (.error ⟨403, "Not authorized to delete this recipe"⟩,
        ⟨[⟨1, "u", "hp", none⟩], [⟨1, "t", none, none, none, 2, 0⟩]⟩) ∧
    (update_recipe (fun _ _ => "m") ⟨"d", "s", 60⟩ 0
        ⟨[⟨1, "u", "hp", none⟩], [⟨1, "t", none, none, none, 1, 0⟩]⟩ 1
        ⟨none, some "new", none, none⟩
        (create_access_token (fun _ _ => "m") ⟨"d", "s", 60⟩ 0 "u" (some 1))).1 =
      .ok (applyRecipeUpdate ⟨1, "t", none, none, none, 1, 0⟩
        ⟨none, some "new", none, none⟩) := by
  have h1 := C6_owner_guard (fun _ _ => "m") ⟨"d", "s", 60⟩ 0
    ⟨[⟨1, "u", "hp", none⟩], [⟨1, "t", none, none, none, 2, 0⟩]⟩ 9
    ⟨none, some "new", none, none⟩
    (create_access_token (fun _ _ => "m") ⟨"d", "s", 60⟩ 0 "u" (some 1))
    ⟨1, "u", "hp", none⟩ rfl
  have h2 := C6_owner_guard (fun _ _ => "m") ⟨"d", "s", 60⟩ 0
    ⟨[⟨1, "u", "hp", none⟩], [⟨1, "t", none, none, none, 2, 0⟩]⟩ 1
    ⟨none, some "new", none, none⟩
    (create_access_token (fun _ _ => "m") ⟨"d", "s", 60⟩ 0 "u" (some 1))
    ⟨1, "u", "hp", none⟩ rfl
  have h3 := C6_owner_guard (fun _ _ => "m") ⟨"d", "s", 60⟩ 0
    ⟨[⟨1, "u", "hp", none⟩], [⟨1, "t", none, none, none, 1, 0⟩]⟩ 1
    ⟨none, some "new", none, none⟩
    (create_access_token (fun _ _ => "m") ⟨"d", "s", 60⟩ 0 "u" (some 1))
    ⟨1, "u", "hp", none⟩ rfl
  exact ⟨(h1.1 rfl).1,
         (h2.2.1 ⟨1, "t", none, none, none, 2, 0⟩ rfl (by decide)).2,
         (h3.2.2 ⟨1, "t", none, none, none, 1, 0⟩ rfl rfl).1⟩

/-- C9: the auth guard answers 401 in all three failure cases — the token
does not decode, the payload has no `sub` claim, or no user carries the
`sub` email (a stale token for a deleted user) — and every error it can
return has status 401, never 404. -/
theorem C9_guard_unauthenticated (mac : Mac) (settings : Settings) (now : Int)
    (db : DB) (token : String) :
    (decode_token mac settings now token = none →
      get_current_user mac settings now db token = .error ⟨401, "Invalid token"⟩) ∧
    (∀ p, decode_token mac settings now token = some p → p.sub = none →
      get_current_user mac settings now db token = .error ⟨401, "Invalid token"⟩) ∧
    (∀ p email, decode_token mac settings now token = some p →
      p.sub = some email → firstUserByEmail db email = none →
      get_current_user mac settings now db token = .error ⟨401, "User not found"⟩) ∧
    (∀ e, get_current_user mac settings now db token = .error e →
      e.status_code = 401) := by
  refine ⟨?_, ?_, ?_, ?_⟩
  · intro hnone
    unfold get_current_user
    rw [hnone]
  · intro p hp hsub
    unfold get_current_user
    rw [hp]
    dsimp only
    rw [hsub]
  · intro p email hp hsub huser
    unfold get_current_user
    rw [hp]
    dsimp only
    rw [hsub]
    dsimp only
    rw [huser]
  · intro e
    unfold get_current_user
    cases hdec : decode_token mac settings now token with
    | none =>
      intro he
      cases he
      rfl
    | some p =>
      dsimp only
      cases hsub : p.sub with
      | none =>
        intro he
        cases he
        rfl
      | some email =>
        dsimp only
        cases huser : firstUserByEmail db email with
        | none =>
          intro he
          cases he
          rfl
        | some u =>
          intro he
          cases he

/-- C9 witness: an undecodable token, a decodable token without `sub`, and
a valid token whose subject user is absent from the store all yield 401. -/
theorem C9_witness :
    get_current_user (fun _ _ => "m") ⟨"d", "s", 60⟩ 0 ⟨[], []⟩ "garbage" =
      .error ⟨401, "Invalid token"⟩ ∧
    get_current_user (fun _ _ => "m") ⟨"d", "s", 60⟩ 0 ⟨[], []⟩
        (jwtEncode (fun _ _ => "m") "s" ⟨none, none, none⟩) =
      .error ⟨401, "Invalid token"⟩ ∧
    get_current_user (fun _ _ => "m") ⟨"d", "s", 60⟩ 0 ⟨[], []⟩
        (create_access_token (fun _ _ => "m") ⟨"d", "s", 60⟩ 0 "u" (some 1)) =
      .error ⟨401, "User not found"⟩ := by
  refine ⟨?_, ?_, ?_⟩
  · exact (C9_guard_unauthenticated (fun _ _ => "m") ⟨"d", "s", 60⟩ 0 ⟨[], []⟩
      "garbage").1 rfl
  · exact (C9_guard_unauthenticated (fun _ _ => "m") ⟨"d", "s", 60⟩ 0 ⟨[], []⟩
      (jwtEncode (fun _ _ => "m") "s" ⟨none, none, none⟩)).2.1
      ⟨none, none, none⟩ rfl rfl
  · exact (C9_guard_unauthenticated (fun _ _ => "m") ⟨"d", "s", 60⟩ 0 ⟨[], []⟩
      (create_access_token (fun _ _ => "m") ⟨"d", "s", 60⟩ 0 "u" (some 1))).2.2.1
      ⟨some "u", some 0, some 60⟩ "u" rfl rfl rfl

/-- C10: a successful recipe creation stores and returns a recipe whose
`owner_id` is the id of the user resolved from the bearer token; the
creation body (`RecipeCreate`) has no owner field, so the owner cannot be
influenced by any input. -/
theorem C10_creation_owner (mac : Mac) (settings : Settings) (now : Int)
    (db : DB) (rin : RecipeCreate) (token : String) (user : User)
    (hauth : get_current_user mac settings now db token = .ok user) :
    create_recipe mac settings now db rin token =
      (.ok ⟨nextRecipeId db, rin.title, rin.description, rin.ingredients,
          rin.steps, user.id, now⟩,
        ⟨db.users, db.recipes ++ [⟨nextRecipeId db, rin.title, rin.description,
          rin.ingredients, rin.steps, user.id, now⟩]⟩) ∧
    (∀ r, (create_recipe mac settings now db rin token).1 = .ok r →
      r.owner_id = user.id) := by
  unfold create_recipe
  rw [hauth]
  refine ⟨rfl, ?_⟩
  intro r hr
  cases hr
  rfl

/-- C10 witness: a concrete creation by the token's user stores the caller
as owner. -/
theorem C10_witness :
    (create_recipe (fun _ _ => "m") ⟨"d", "s", 60⟩ 0
        ⟨[⟨1, "u", "hp", none⟩], []⟩ ⟨"t", none, none, none⟩
        (create_access_token (fun _ _ => "m") ⟨"d", "s", 60⟩ 0 "u" (some 1))).1 =
      .ok ⟨1, "t", none, none, none, 1, 0⟩ ∧
    (∀ r, (create_recipe (fun _ _ => "m") ⟨"d", "s", 60⟩ 0
        ⟨[⟨1, "u", "hp", none⟩], []⟩ ⟨"t", none, none, none⟩
        (create_access_token (fun _ _ => "m") ⟨"d", "s", 60⟩ 0 "u" (some 1))).1 =
      .ok r → r.owner_id = 1) := by
  have h := C10_creation_owner (fun _ _ => "m") ⟨"d", "s", 60⟩ 0
    ⟨[⟨1, "u", "hp", none⟩], []⟩ ⟨"t", none, none, none⟩
    (create_access_token (fun _ _ => "m") ⟨"d", "s", 60⟩ 0 "u" (some 1))
    ⟨1, "u", "hp", none⟩ rfl
  refine ⟨?_, h.2⟩
  rw [h.1]
  rfl

/-- C1 counterexample: `create_access_token` computes
`expires_delta_minutes or settings.ACCESS_TOKEN_EXPIRE_MINUTES`, and Python
`or` treats `0` as falsy: a token issued with ttl 0 under the configured
default of 60 minutes expires at `iat + 3600`, so verifying it one second
after issuance yields the payload — not Invalid as the claim states. -/
theorem C1_counterexample :
    decode_token (fun _ _ => "m") ⟨"sqlite://app.db", "secret", 60⟩ 1
        (create_access_token (fun _ _ => "m") ⟨"sqlite://app.db", "secret", 60⟩
          0 "u" (some 0)) =
      some ⟨some "u", some 0, some 3600⟩ ∧
    pyOrInt (some 0) 60 = 60 := by
  constructor
  · have henc : create_access_token (fun _ _ => "m")
        ⟨"sqlite://app.db", "secret", 60⟩ 0 "u" (some 0) =
        jwtEncode (fun _ _ => "m") "secret" ⟨some "u", some 0, some 3600⟩ := rfl
    have hdec : decode_token (fun _ _ => "m") ⟨"sqlite://app.db", "secret", 60⟩ 1
        (jwtEncode (fun _ _ => "m") "secret" ⟨some "u", some 0, some 3600⟩) =
        jwtDecode (fun _ _ => "m") "secret" 1
          (jwtEncode (fun _ _ => "m") "secret" ⟨some "u", some 0, some 3600⟩) := rfl
    rw [henc, hdec, jwtDecode_jwtEncode]
    rfl
  · rfl

/-- C1 (amended): with `ACCESS_TOKEN_EXPIRE_MINUTES` unset the configured
default is 60 minutes; a token issued with ttl=0 does NOT expire
immediately — `0` is falsy in Python's `or`, so it falls back to the
default and is still Valid one second after issuance — and a token issued
with the ttl parameter unset uses the same default and is Valid
immediately after issuance. -/
theorem C1_ttl_zero_falls_back (mac : Mac) (env : EnvVars) (settings : Settings)
    (hset : get_settings env = .ok settings)
    (hunset : env.ACCESS_TOKEN_EXPIRE_MINUTES = none)
    (subject : String) (now : Int) :
    settings.ACCESS_TOKEN_EXPIRE_MINUTES = 60 ∧
    decode_token mac settings (now + 1)
        (create_access_token mac settings now subject (some 0)) =
      some ⟨some subject, some now, some (now + 3600)⟩ ∧
    decode_token mac settings now
        (create_access_token mac settings now subject none) =
      some ⟨some subject, some now, some (now + 3600)⟩ := by
  have hacc : settings.ACCESS_TOKEN_EXPIRE_MINUTES = 60 := by
    unfold get_settings at hset
    by_cases hb : (presentStr env.DATABASE_URL && presentStr env.JWT_SECRET) = true
    · rw [if_pos hb] at hset
      cases hset
      simp [hunset]
    · rw [if_neg hb] at hset
      cases hset
  have henc0 : create_access_token mac settings now subject (some 0) =
      jwtEncode mac settings.JWT_SECRET ⟨some subject, some now, some (now + 3600)⟩ := by
    unfold create_access_token
    have hpy : pyOrInt (some 0) settings.ACCESS_TOKEN_EXPIRE_MINUTES =
        settings.ACCESS_TOKEN_EXPIRE_MINUTES := rfl
    rw [hpy, hacc]
    norm_num
  have hencN : create_access_token mac settings now subject none =
      jwtEncode mac settings.JWT_SECRET ⟨some subject, some now, some (now + 3600)⟩ := by
    unfold create_access_token
    have hpy : pyOrInt none settings.ACCESS_TOKEN_EXPIRE_MINUTES =
        settings.ACCESS_TOKEN_EXPIRE_MINUTES := rfl
    rw [hpy, hacc]
    norm_num
  refine ⟨hacc, ?_, ?_⟩
  · rw [henc0]
    unfold decode_token
    rw [jwtDecode_jwtEncode]
    dsimp only
    rw [if_neg (by omega : ¬ now + 3600 < now + 1)]
  · rw [hencN]
    unfold decode_token
    rw [jwtDecode_jwtEncode]
    dsimp only
    rw [if_neg (by omega : ¬ now + 3600 < now)]

/-- C1 witness: the amended behaviour at a concrete environment with the
expiry variable unset. -/
theorem C1_witness :
    (⟨"d", "s", 60⟩ : Settings).ACCESS_TOKEN_EXPIRE_MINUTES = 60 ∧
    decode_token (fun _ _ => "m") ⟨"d", "s", 60⟩ 1
        (create_access_token (fun _ _ => "m") ⟨"d", "s", 60⟩ 0 "u" (some 0)) =
      some ⟨some "u", some 0, some 3600⟩ ∧
    decode_token (fun _ _ => "m") ⟨"d", "s", 60⟩ 0
        (create_access_token (fun _ _ => "m") ⟨"d", "s", 60⟩ 0 "u" none) =
      some ⟨some "u", some 0, some 3600⟩ :=
  C1_ttl_zero_falls_back (fun _ _ => "m") ⟨some "d", some "s", none⟩
    ⟨"d", "s", 60⟩ rfl rfl "u" 0

/-- Rejection of any altered signature segment: a token whose third segment
is anything other than the correct MAC encoding decodes to `None`
(regardless of whether the altered segment even stays dot-free). -/
theorem decode_token_wrong_sig (mac : Mac) (settings : Settings) (now : Int)
    (p : Payload) (s' : List Char)
    (hne : s' ≠ sigChars mac settings.JWT_SECRET (signingInput p)) :
    decode_token mac settings now
      (String.mk (headerChars ++ '.' :: (payloadChars p ++ '.' :: s'))) = none := by
  unfold decode_token jwtDecode
  have hsplit : splitDots (String.mk (headerChars ++ '.' ::
      (payloadChars p ++ '.' :: s'))).data =
      headerChars :: payloadChars p :: splitDots s' := by
    show splitDots (headerChars ++ '.' :: (payloadChars p ++ '.' :: s')) = _
    rw [splitDots_append_dot _ dot_not_mem_headerChars,
        splitDots_append_dot _ (dot_not_mem_payloadChars p)]
  rw [hsplit]
  cases hsp : splitDots s' with
  | nil => exact absurd hsp (splitDots_ne_nil s')
  | cons x xs =>
    cases xs with
    | nil =>
      have hx : x = s' := splitDots_eq_singleton hsp
      subst hx
      dsimp only
      rw [if_pos rfl, decodeSegPayload_payloadChars]
      dsimp only
      have hsi : String.mk (headerChars ++ '.' :: payloadChars p) = signingInput p := rfl
      rw [hsi, if_neg hne]
    | cons y ys => rfl

/-- C8: token verification is fail-closed and total. Decoding an encoded
claim set returns the claim set when it is unexpired (or carries no expiry)
and `none` when it is expired; any alteration of the signature segment —
in particular changing a single character of it — makes decoding return
`none`. The function is total (`Option`-valued), so no input throws. -/
theorem C8_decode_fail_closed (mac : Mac) (settings : Settings) (now : Int)
    (p : Payload) :
    (∀ e, p.exp = some e → ¬ e < now →
      decode_token mac settings now (jwtEncode mac settings.JWT_SECRET p) = some p) ∧
    (p.exp = none →
      decode_token mac settings now (jwtEncode mac settings.JWT_SECRET p) = some p) ∧
    (∀ e, p.exp = some e → e < now →
      decode_token mac settings now (jwtEncode mac settings.JWT_SECRET p) = none) ∧
    (∀ s', s' ≠ sigChars mac settings.JWT_SECRET (signingInput p) →
      decode_token mac settings now
        (String.mk (headerChars ++ '.' :: (payloadChars p ++ '.' :: s'))) = none) ∧
    (∀ u d d' w, sigChars mac settings.JWT_SECRET (signingInput p) = u ++ d :: w →
      d' ≠ d →
      decode_token mac settings now
        (String.mk (headerChars ++ '.' :: (payloadChars p ++ '.' :: (u ++ d' :: w)))) =
        none) := by
  refine ⟨?_, ?_, ?_, ?_, ?_⟩
  · intro e he hlt
    unfold decode_token
    rw [jwtDecode_jwtEncode, he]
    dsimp only
    rw [if_neg hlt]
  · intro he
    unfold decode_token
    rw [jwtDecode_jwtEncode, he]
  · intro e he hlt
    unfold decode_token
    rw [jwtDecode_jwtEncode, he]
    dsimp only
    rw [if_pos hlt]
  · intro s' hne
    exact decode_token_wrong_sig mac settings now p s' hne
  · intro u d d' w hsig hd
    apply decode_token_wrong_sig
    rw [hsig]
    intro heq
    exact hd (List.cons.inj (List.append_cancel_left heq)).1

/-- C8 witness: a concrete unexpired token decodes, the same token expired
returns `None`, a wholesale-replaced signature segment returns `None`, and
so does flipping the first character of the correct signature segment. -/
theorem C8_witness :
    decode_token (fun _ _ => "m") ⟨"d", "s", 60⟩ 0
        (jwtEncode (fun _ _ => "m") "s" ⟨some "u", some 0, some 5⟩) =
      some ⟨some "u", some 0, some 5⟩ ∧
    decode_token (fun _ _ => "m") ⟨"d", "s", 60⟩ 6
        (jwtEncode (fun _ _ => "m") "s" ⟨some "u", some 0, some 5⟩) = none ∧
    decode_token (fun _ _ => "m") ⟨"d", "s", 60⟩ 0
        (String.mk (headerChars ++ '.' ::
          (payloadChars ⟨some "u", some 0, some 5⟩ ++ '.' :: ['a']))) = none ∧
    decode_token (fun _ _ => "m") ⟨"d", "s", 60⟩ 0
        (String.mk (headerChars ++ '.' ::
          (payloadChars ⟨some "u", some 0, some 5⟩ ++ '.' ::
            ([] ++ 'b' :: (List.replicate 108 'a' ++ ['x']))))) = none := by
  refine ⟨?_, ?_, ?_, ?_⟩
  · exact (C8_decode_fail_closed (fun _ _ => "m") ⟨"d", "s", 60⟩ 0
      ⟨some "u", some 0, some 5⟩).1 5 rfl (by decide)
  · exact (C8_decode_fail_closed (fun _ _ => "m") ⟨"d", "s", 60⟩ 6
      ⟨some "u", some 0, some 5⟩).2.2.1 5 rfl (by decide)
  · exact (C8_decode_fail_closed (fun _ _ => "m") ⟨"d", "s", 60⟩ 0
      ⟨some "u", some 0, some 5⟩).2.2.2.1 ['a'] (by decide)
  · exact (C8_decode_fail_closed (fun _ _ => "m") ⟨"d", "s", 60⟩ 0
      ⟨some "u", some 0, some 5⟩).2.2.2.2 [] 'a' 'b'
      (List.replicate 108 'a' ++ ['x']) (by decide) (by decide)

/-- C7 counterexample: the filter interpolates `q` into a LIKE pattern
(`f"%{q}%"` with `ilike`), so LIKE metacharacters in `q` keep their wildcard
meaning: searching for `"_"` returns a recipe titled "abc", which does not
contain `"_"` as a substring — the result is not "exactly the recipes
containing q". -/
theorem C7_counterexample :
    list_recipes_query ⟨[], [⟨1, "abc", none, none, none, 1, 0⟩]⟩ (some "_") 0 20 =
      [⟨1, "abc", none, none, none, 1, 0⟩] ∧
    specRecipeMatches "_" ⟨1, "abc", none, none, none, 1, 0⟩ = false := by
  constructor <;> rfl

/-- C7 (amended): for every search string `q` free of the SQL LIKE
metacharacters `%` and `_`, the list query returns exactly the recipes
whose title OR description OR ingredients contain `q` as a case-insensitive
substring, ordered by creation time descending, with `skip` records dropped
from the front and at most `limit` records returned. -/
theorem C7_search_contract (db : DB) (q : String) (skip limit : Nat)
    (hq : noWildcards q = true) :
    list_recipes_query db (some q) skip limit = list_recipes_spec db q skip limit ∧
    (list_recipes_query db (some q) skip limit).Pairwise
      (fun a b => b.created_at ≤ a.created_at) ∧
    (list_recipes_query db (some q) skip limit).length ≤ limit := by
  have hbase : (if q = "" then db.recipes else db.recipes.filter (recipeMatchesQ q)) =
      db.recipes.filter (specRecipeMatches q) := by
    by_cases hq0 : q = ""
    · rw [if_pos hq0, hq0]
      exact (List.filter_eq_self.mpr (fun r _ => specRecipeMatches_empty r)).symm
    · rw [if_neg hq0]
      exact List.filter_congr (fun r _ => recipeMatchesQ_eq_spec hq r)
  have hmain : list_recipes_query db (some q) skip limit =
      list_recipes_spec db q skip limit := by
    unfold list_recipes_query list_recipes_spec
    dsimp only
    rw [hbase]
  refine ⟨hmain, ?_, ?_⟩
  · rw [hmain]
    unfold list_recipes_spec
    exact (pairwise_sortByCreatedDesc
        (db.recipes.filter (specRecipeMatches q))).sublist
      (List.Sublist.trans (List.take_sublist _ _) (List.drop_sublist _ _))
  · rw [hmain]
    unfold list_recipes_spec
    exact List.length_take_le _ _

/-- C7 witness: a concrete search for "egg" over a two-recipe store. -/
theorem C7_witness :
    list_recipes_query ⟨[], [⟨1, "Egg salad", none, none, none, 1, 0⟩,
        ⟨2, "toast", none, none, none, 1, 5⟩]⟩ (some "egg") 0 20 =
      list_recipes_spec ⟨[], [⟨1, "Egg salad", none, none, none, 1, 0⟩,
        ⟨2, "toast", none, none, none, 1, 5⟩]⟩ "egg" 0 20 ∧
    (list_recipes_query ⟨[], [⟨1, "Egg salad", none, none, none, 1, 0⟩,
        ⟨2, "toast", none, none, none, 1, 5⟩]⟩ (some "egg") 0 20).Pairwise
      (fun a b => b.created_at ≤ a.created_at) ∧
    (list_recipes_query ⟨[], [⟨1, "Egg salad", none, none, none, 1, 0⟩,
        ⟨2, "toast", none, none, none, 1, 5⟩]⟩ (some "egg") 0 20).length ≤ 20 :=
  C7_search_contract ⟨[], [⟨1, "Egg salad", none, none, none, 1, 0⟩,
    ⟨2, "toast", none, none, none, 1, 5⟩]⟩ "egg" 0 20 rfl

end RecipeHub
